import Mathlib

/-
Verification of the cmssy-forge development-server core (the dev command):
the file-watcher change handler, the SSE hot-reload broadcast, the publish
endpoint, the asynchronous publish-task state machine, and the publish
progress stream.  All definitions are shallow embeddings of the TypeScript
source (the dev command module); external collaborators (chokidar event
delivery, the exec call outcome, config loading) are modelled as explicit
parameters or oracles, documented at each definition.
-/

namespace CmssyForge

/-- Package manifest fields used by the dev server (name and version read
from package.json; both may be absent). -/
structure PackageJson where
  pname : Option String
  version : Option String
deriving Repr, DecidableEq

/-- Block configuration as loaded from block.config.ts.  Mirrors the
BlockConfig interface: required name, optional description and category
(category is optional for templates), and the field schema.  The schema is
represented as an ordered association list of field key to field-type tag;
its inner structure is opaque to every operation verified here (the dev
command only ever replaces it wholesale). -/
structure BlockConfig where
  name : String
  description : Option String
  category : Option String
  schema : List (String × String)
deriving Repr, DecidableEq

/-- One scanned resource as held in the in-memory registry, with the fields
the dev command reads and writes: type ("block" or "template"), name, root
path, display metadata, the loaded block config and package manifest. -/
structure Resource where
  rtype : String
  name : String
  path : String
  displayName : String
  description : Option String
  category : Option String
  blockConfig : Option BlockConfig
  packageJson : Option PackageJson
deriving Repr, DecidableEq

/-- One hot-reload SSE event as written by the watcher: always type
"reload", carrying either a single block name or the marker "all", plus the
optional configChanged / stylesChanged flags (absent fields are none, as in
the emitted JSON). -/
structure SSEEvent where
  etype : String
  block : String
  configChanged : Option Bool
  stylesChanged : Option Bool
deriving Repr, DecidableEq

/-- A connected preview session (one entry of the sseClients array).  The
connected flag says whether a write on its response object succeeds; a
write to a disconnected session throws, which the broadcast code catches
and ignores. -/
structure Session where
  sid : Nat
  connected : Bool
deriving Repr, DecidableEq

/-- Filesystem and config-loading oracles used by the change handler:
loadBlockConfig keyed by resource root path (none models a failed load),
and reading package.json keyed by its path (none models a missing file). -/
structure FsEnv where
  loadBlockConfig : String → Option BlockConfig
  readPackageJson : String → Option PackageJson

/-- The event written for a shared-styles change: reload with the "all"
marker and stylesChanged true. -/
def stylesEvent : SSEEvent :=
  { etype := "reload", block := "all", configChanged := none, stylesChanged := some true }

/-- The event written after rebuilding one resource, carrying whether the
triggering file was the block config. -/
def resourceEvent (name : String) (isCfg : Bool) : SSEEvent :=
  { etype := "reload", block := name, configChanged := some isCfg, stylesChanged := none }

/-- One write attempt of the broadcast loop: a connected session receives
the event; a disconnected one throws, which the caller catches.  none
models the caught exception. -/
def writeAttempt (c : Session) (ev : SSEEvent) : Option SSEEvent :=
  if c.connected then some ev else none

/-- The sseClients.forEach broadcast: attempt a write to every session in
order, swallowing failures (the catch block is empty) and continuing with
the rest.  Returns the successful deliveries in order.  The session list
itself is not modified by the loop. -/
def broadcastLoop : List Session → SSEEvent → List (Nat × SSEEvent)
  | [], _ => []
  | c :: rest, ev =>
    match writeAttempt c ev with
    | some e => (c.sid, e) :: broadcastLoop rest ev
    | none => broadcastLoop rest ev

/-- The GET /events close handler: indexOf followed by splice removes the
first session with the disconnecting response object (identified here by
its sid) from the client array. -/
def onCloseRemove : List Session → Nat → List Session
  | [], _ => []
  | c :: rest, sid => if c.sid = sid then rest else c :: onCloseRemove rest sid

/-- Whether the first list is a prefix of the second. -/
def leadsWith : List Char → List Char → Bool
  | [], _ => true
  | _ :: _, [] => false
  | a :: as, b :: bs => a == b && leadsWith as bs

/-- String.prototype.endsWith, computed on the character sequences. -/
def strEndsWith (s suffix : String) : Bool :=
  leadsWith suffix.data.reverse s.data.reverse

/-- The filepath.endsWith check of the handler, applied to a path given as
its separator-split components.  A suffix containing no separator matches
the full path string exactly when it matches the last component, so the
check is performed on the last component. -/
def pathEndsWith (parts : List String) (suffix : String) : Bool :=
  strEndsWith (parts.getLast?.getD "") suffix

/-- Resource-name extraction of the change handler: the component index of
"blocks" if present, otherwise of "templates"; if neither occurs the event
is dropped, otherwise the following component names the resource (none when
out of range, matching the undefined lookup in the source). -/
def resourceNameOf (parts : List String) : Option String :=
  match (match parts.findIdx? (· == "blocks") with
         | some i => some i
         | none => parts.findIdx? (· == "templates")) with
  | none => none
  | some i => parts.get? (i + 1)

/-- Replace the first element satisfying the predicate, as the in-place
mutation of the object returned by Array.prototype.find. -/
def updateFirst (p : α → Bool) (f : α → α) : List α → List α
  | [] => []
  | a :: rest => if p a then f a :: rest else a :: updateFirst p f rest

/-- Registry update performed on a block.config.ts reload: store the new
config and refresh displayName (falling back to the resource name when the
config name is the empty string, the falsy check of the source), plus
description and category.  The schema travels inside the stored config. -/
def applyConfig (r : Resource) (cfg : BlockConfig) : Resource :=
  { r with blockConfig := some cfg,
           displayName := if cfg.name = "" then r.name else cfg.name,
           description := cfg.description,
           category := cfg.category }

/-- Everything one invocation of the change handler produces: the registry
after any in-place resource mutation, the ordered list of resource names
passed to buildResource, the resources whose types were regenerated, the
events handed to the broadcast, the successful SSE deliveries, and the
session list afterwards. -/
structure WatchResult where
  registry : List Resource
  rebuilds : List String
  typegens : List String
  events : List SSEEvent
  deliveries : List (Nat × SSEEvent)
  clientsAfter : List Session
deriving Repr, DecidableEq

/-- A handler invocation that ignores the event. -/
def watchNoop (registry : List Resource) (clients : List Session) : WatchResult :=
  { registry := registry, rebuilds := [], typegens := [], events := [],
    deliveries := [], clientsAfter := clients }

/-- The watcher change handler of the dev command, for one delivered change
event whose path is given as separator-split components.  In source order:
preview.json and block.d.ts suffixes are ignored; a path containing a
"styles" component rebuilds every resource and broadcasts the "all" event;
otherwise the resource is located from the path, its config or manifest is
reloaded when the changed file is block.config.ts or package.json, the
resource is rebuilt once and one per-resource event is broadcast; an event
whose resource cannot be located is dropped with a warning. -/
def handleChange (env : FsEnv) (registry : List Resource) (clients : List Session)
    (parts : List String) : WatchResult :=
  if pathEndsWith parts "preview.json" then watchNoop registry clients
  else if pathEndsWith parts "block.d.ts" then watchNoop registry clients
  else if parts.contains "styles" then
    { registry := registry,
      rebuilds := registry.map (·.name),
      typegens := [],
      events := [stylesEvent],
      deliveries := broadcastLoop clients stylesEvent,
      clientsAfter := clients }
  else
    match resourceNameOf parts with
    | none => watchNoop registry clients
    | some rname =>
      match registry.find? (fun x => x.name == rname) with
      | none => watchNoop registry clients
      | some r =>
        let isCfg := pathEndsWith parts "block.config.ts"
        let withCfg :=
          if isCfg then
            match env.loadBlockConfig r.path with
            | some cfg => (applyConfig r cfg, [r.name])
            | none => (r, [])
          else (r, [])
        let r2 :=
          if pathEndsWith parts "package.json" then
            match env.readPackageJson (r.path ++ "/package.json") with
            | some pkg => { withCfg.1 with packageJson := some pkg }
            | none => withCfg.1
          else withCfg.1
        let ev := resourceEvent r.name isCfg
        { registry := updateFirst (fun x => x.name == rname) (fun _ => r2) registry,
          rebuilds := [r.name],
          typegens := withCfg.2,
          events := [ev],
          deliveries := broadcastLoop clients ev,
          clientsAfter := clients }

/-- Sequential processing of a list of delivered change events, threading
the registry (handlers run to completion one after another on the event
loop); accumulates the rebuild list. -/
def processEvents (env : FsEnv) (clients : List Session) (registry : List Resource) :
    List (List String) → List Resource × List String
  | [] => (registry, [])
  | p :: rest =>
    let r := handleChange env registry clients p
    let next := processEvents env clients r.registry rest
    (next.1, r.rebuilds ++ next.2)

/-- Number of burst boundaries in a time-ordered list of write timestamps:
a gap of at least the stability threshold separates two bursts. -/
def burstBoundaries (threshold : Nat) : List Nat → Nat
  | t1 :: t2 :: rest =>
    (if threshold ≤ t2 - t1 then 1 else 0) + burstBoundaries threshold (t2 :: rest)
  | _ => 0

/-- Number of write bursts for one file: zero for no writes, otherwise one
plus the number of boundaries. -/
def burstCount (threshold : Nat) (ts : List Nat) : Nat :=
  if ts.isEmpty then 0 else 1 + burstBoundaries threshold ts

/-- Helper for first-occurrence deduplication of event paths. -/
def distinctPathsAux (seen : List (List String)) : List (List String) → List (List String)
  | [] => []
  | p :: rest =>
    if seen.contains p then distinctPathsAux seen rest
    else p :: distinctPathsAux (p :: seen) rest

/-- Distinct event paths in first-occurrence order. -/
def distinctPaths (l : List (List String)) : List (List String) :=
  distinctPathsAux [] l

/-- Timestamps of the write events touching one path. -/
def timesOf (p : List String) (evs : List (Nat × List String)) : List Nat :=
  (evs.filter (fun e => e.2 == p)).map (·.1)

/-- Change events delivered by the watcher for a list of raw filesystem
write events (timestamp, path).  Models the chokidar awaitWriteFinish
option as configured by setupWatcher (stabilityThreshold 100): emission of
a change for a file is held until its writes have been stable for the
threshold, so one change is delivered per write burst per file, and
distinct files stabilize independently.  Delivered events are grouped by
path in first-occurrence order; cross-path ordering is irrelevant to the
rebuild counts verified here. -/
def chokidarDeliver (threshold : Nat) (evs : List (Nat × List String)) : List (List String) :=
  (distinctPaths (evs.map (·.2))).flatMap
    (fun p => List.replicate (burstCount threshold (timesOf p evs)) p)

/-- One entry of the publish task steps log. -/
structure Step where
  step : String
  status : String
  message : String
deriving Repr, DecidableEq

/-- One publish task as stored in the publishTasks map. -/
structure Task where
  id : String
  blockName : String
  status : String
  progress : Nat
  steps : List Step
  error : Option String
deriving Repr, DecidableEq

/-- The task stored by the publish endpoint before executePublish starts:
pending, progress 0, empty steps log, no error. -/
def initTask (tid name : String) : Task :=
  { id := tid, blockName := name, status := "pending", progress := 0,
    steps := [], error := none }

/-- One in-place field mutation of a task object, as performed by
executePublish. -/
inductive Mut where
  | setStatus (s : String)
  | setProgress (p : Nat)
  | pushStep (st : Step)
  | setLastStepStatus (s : String)
  | setError (e : String)

/-- Assignment to the status of the last steps entry, a no-op on an empty
log (the source guards the failure-path assignment with a length check). -/
def setLastStatus (s : String) : List Step → List Step
  | [] => []
  | [st] => [{ st with status := s }]
  | st :: rest => st :: setLastStatus s rest

/-- Apply one mutation to a task. -/
def applyMut (t : Task) : Mut → Task
  | .setStatus s => { t with status := s }
  | .setProgress p => { t with progress := p }
  | .pushStep st => { t with steps := t.steps ++ [st] }
  | .setLastStepStatus s => { t with steps := setLastStatus s t.steps }
  | .setError e => { t with error := some e }

/-- The terminal message of a successful publish, depending on the target. -/
def publishSuccessMessage (target : String) : String :=
  if target = "marketplace" then
    "Submitted for review. You\x27ll be notified when approved."
  else "Published to workspace successfully!"

/-- The mutations executePublish performs before awaiting the exec promise,
in source order: enter building at progress 10, log the building step, close
it and log validating at progress 30, close it and log publishing at
progress 50. -/
def prePhaseMuts (target : String) : List Mut :=
  [ .setStatus "building",
    .setProgress 10,
    .pushStep { step := "building", status := "in_progress", message := "Building block..." },
    .setLastStepStatus "completed",
    .pushStep { step := "validating", status := "in_progress",
                message := "Validating configuration..." },
    .setProgress 30,
    .setLastStepStatus "completed",
    .pushStep { step := "publishing", status := "in_progress",
                message := "Publishing to " ++ target ++ "..." },
    .setProgress 50 ]

/-- The mutations of the success continuation after the exec promise
resolves: close the publishing step, progress 100, status completed, log
the completed step. -/
def successMuts (target : String) : List Mut :=
  [ .setLastStepStatus "completed",
    .setProgress 100,
    .setStatus "completed",
    .pushStep { step := "completed", status := "completed",
                message := publishSuccessMessage target } ]

/-- The mutations of the catch block when the exec promise rejects with the
given message: status failed, record the error, mark the last step failed,
log the error step. -/
def failureMuts (msg : String) : List Mut :=
  [ .setStatus "failed",
    .setError msg,
    .setLastStepStatus "failed",
    .pushStep { step := "error", status := "failed", message := "Error: " ++ msg } ]

/-- Outcome of the awaited exec promise: resolution, or rejection carrying
the message built by the exec callback (the child stderr if non-empty,
otherwise the error message; a timeout kill surfaces through the same
rejection). -/
inductive ExecOutcome where
  | ok
  | err (message : String)

/-- The complete mutation sequence of one executePublish run for a given
exec outcome.  The only suspension point of the function is the awaited
exec promise, so rejection can only occur between the pre-phase and the
continuation. -/
def execPublishMuts (target : String) : ExecOutcome → List Mut
  | .ok => prePhaseMuts target ++ successMuts target
  | .err m => prePhaseMuts target ++ failureMuts m

/-- The task after one executePublish run. -/
def runPublish (t : Task) (target : String) (out : ExecOutcome) : Task :=
  (execPublishMuts target out).foldl applyMut t

/-- The statement-granularity trace of task states along one executePublish
run, starting from the initial task, one state per mutation. -/
def publishTrace (t : Task) (target : String) (out : ExecOutcome) : List Task :=
  (execPublishMuts target out).scanl applyMut t

/-- Task states observable by other handlers on the event loop: executePublish
is a run-to-completion async function whose only suspension point is the
awaited exec promise, so readers can observe exactly the state at task
creation, the state while the exec promise is pending, and the state after
the function returns. -/
def observableTrace (t : Task) (target : String) (out : ExecOutcome) : List Task :=
  [t, (prePhaseMuts target).foldl applyMut t, runPublish t target out]

/-- Rank of a status in the pipeline order pending, building, validating,
publishing, then the two terminal statuses. -/
def statusRank : String → Nat
  | "pending" => 0
  | "building" => 1
  | "validating" => 2
  | "publishing" => 3
  | "completed" => 4
  | "failed" => 4
  | _ => 0

/-- Whether a task status is terminal. -/
def terminalStatus (t : Task) : Bool :=
  t.status == "completed" || t.status == "failed"

/-- Message the exec callback passes to the rejection on a timeout kill:
the child stderr if non-empty, otherwise the error message.  The error
message itself comes from the Node child_process exec implementation, which
on exceeding the timeout option kills the child and invokes the callback
with the generic command-failure error for the killed command; this
constant models that documented external behaviour (no repository code
contributes any wording to it). -/
def nodeExecTimeoutMessage (command : String) : String :=
  "Command failed: " ++ command

/-- Rejection message reaching the catch block when the exec call exceeds
PUBLISH_TIMEOUT_MS, per the stderr-or-message choice in the exec callback. -/
def timeoutRejectionMessage (stderr command : String) : String :=
  if stderr = "" then nodeExecTimeoutMessage command else stderr

/-- Response of the publish endpoint. -/
inductive PublishResponse where
  | notFound
  | badRequest (msg : String)
  | started (taskId : String)
deriving Repr, DecidableEq

/-- Body and route parameter of a publish request; absent JSON fields are
none. -/
structure PublishRequest where
  name : String
  target : Option String
  workspaceId : Option String
  versionBump : Option String
deriving Repr, DecidableEq

/-- JS falsiness of an optional string field: absent or empty. -/
def falsyStr : Option String → Bool
  | none => true
  | some s => s = ""

/-- Map.get on the publishTasks map. -/
def lookupTask (tasks : List (String × Task)) (tid : String) : Option Task :=
  (tasks.find? (fun p => p.1 == tid)).map (·.2)

/-- Map.set on the publishTasks map: replace an existing binding, otherwise
append. -/
def taskSet (tasks : List (String × Task)) (k : String) (v : Task) :
    List (String × Task) :=
  if tasks.any (fun p => p.1 == k) then
    tasks.map (fun p => if p.1 == k then (k, v) else p)
  else tasks ++ [(k, v)]

/-- The POST publish endpoint: look up the resource (404 when absent),
validate the target (400 when missing or neither marketplace nor
workspace), require a workspace id for a workspace publish (400), and only
then store a fresh pending task and answer with its id; executePublish is
then started without being awaited.  The generated task id is passed in
explicitly (Date.now and Math.random are external). -/
def publishCreate (registry : List Resource) (tasks : List (String × Task))
    (req : PublishRequest) (newTaskId : String) :
    PublishResponse × List (String × Task) :=
  match registry.find? (fun r => r.name == req.name) with
  | none => (.notFound, tasks)
  | some _ =>
    if falsyStr req.target ||
        (req.target != some "marketplace" && req.target != some "workspace") then
      (.badRequest "Invalid target. Must be \x27marketplace\x27 or \x27workspace\x27", tasks)
    else if req.target == some "workspace" && falsyStr req.workspaceId then
      (.badRequest "Workspace ID required for workspace publish", tasks)
    else
      (.started newTaskId, taskSet tasks newTaskId (initTask newTaskId req.name))

/-- The task id carried by a response, none unless the publish was started. -/
def responseTaskId : PublishResponse → Option String
  | .started t => some t
  | _ => none

/-- Whether a response is a validation rejection. -/
def isBadRequest : PublishResponse → Bool
  | .badRequest _ => true
  | _ => false

/-- What one 500 ms poll tick of the progress SSE endpoint does for a given
task map snapshot: an absent task writes nothing and keeps the stream open;
a present task is written, and the response is ended exactly when its
status is terminal. -/
structure TickResult where
  writes : List Task
  ended : Bool
deriving Repr, DecidableEq

/-- One poll tick of the progress endpoint. -/
def progressTick (tasks : List (String × Task)) (tid : String) : TickResult :=
  match lookupTask tasks tid with
  | none => { writes := [], ended := false }
  | some t => { writes := [t], ended := terminalStatus t }

/-- The initial write of the progress endpoint at request time: the task
state if present, nothing otherwise (the endpoint has no not-found branch). -/
def progressInitialWrite (tasks : List (String × Task)) (tid : String) : List Task :=
  match lookupTask tasks tid with
  | none => []
  | some t => [t]

/-- The data frames written and whether the server ended the response,
over a sequence of task-map snapshots seen at successive poll ticks (the
interval is cleared either when a terminal task state is written or when
the client closes the connection, which truncates the snapshot list). -/
def progressRun (tid : String) : List (List (String × Task)) → List Task × Bool
  | [] => ([], false)
  | m :: rest =>
    let r := progressTick m tid
    if r.ended then (r.writes, true)
    else
      let next := progressRun tid rest
      (r.writes ++ next.1, next.2)

/-- Collapse equal consecutive elements, to read off the sequence of
distinct values a field takes along a trace. -/
def dedupConsec [DecidableEq a] : List a → List a
  | [] => []
  | [x] => [x]
  | x :: y :: rest => if x = y then dedupConsec (y :: rest) else x :: dedupConsec (y :: rest)

/-- Whether the first list occurs contiguously inside the second. -/
def hasSub (needle : List Char) : List Char → Bool
  | [] => leadsWith needle []
  | c :: rest => leadsWith needle (c :: rest) || hasSub needle rest

/-- C2: in the successful publish run the status field never takes the
value "validating" nor "publishing": the trace of a concrete successful
run (resource hero, target workspace) contains neither, refuting the
claimed status sequence pending, building, validating, publishing,
completed. -/
theorem publish_status_skips_middle_states :
    ((publishTrace (initTask "t1" "hero") "workspace" .ok).map Task.status).contains "validating" = false
    ∧ ((publishTrace (initTask "t1" "hero") "workspace" .ok).map Task.status).contains "publishing" = false := by
  decide

/-- C2 (amended): along every successful publish run, progress advances
exactly through the schedule 0, 10, 30, 50, 100, one steps entry is
appended per phase (building, validating, publishing, completed) and all
end completed, but the status field only takes the values pending,
building, completed: the validating and publishing phases are recorded in
the steps log, never in status. -/
theorem publish_steps_progress_schedule (tid name target : String) :
    dedupConsec ((publishTrace (initTask tid name) target .ok).map Task.progress)
      = [0, 10, 30, 50, 100]
    ∧ dedupConsec ((publishTrace (initTask tid name) target .ok).map Task.status)
      = ["pending", "building", "completed"]
    ∧ (runPublish (initTask tid name) target .ok).steps.map Step.step
      = ["building", "validating", "publishing", "completed"]
    ∧ ((runPublish (initTask tid name) target .ok).steps.map Step.status).all
        (fun s => s == "completed") = true := by
  refine ⟨?_, ?_, ?_, ?_⟩ <;>
    simp [publishTrace, runPublish, execPublishMuts, prePhaseMuts, successMuts,
      applyMut, setLastStatus, initTask, dedupConsec]

/-- C3: along every publish run, successful or failed, the progress values
form a non-decreasing sequence bounded by 100, and the status ranks never
move backward in the order pending, building, validating, publishing,
terminal; any two reads of the task state observe states of this trace in
order, so the later read is never behind the earlier one. -/
theorem publish_progress_monotone (tid name target : String) (out : ExecOutcome) :
    List.Chain' (fun x y => x ≤ y)
      ((publishTrace (initTask tid name) target out).map Task.progress)
    ∧ List.Chain' (fun x y => statusRank x ≤ statusRank y)
      ((publishTrace (initTask tid name) target out).map Task.status)
    ∧ ((publishTrace (initTask tid name) target out).map Task.progress).all
        (fun p => p ≤ 100) = true := by
  cases out <;> refine ⟨?_, ?_, ?_⟩ <;>
    simp [publishTrace, execPublishMuts, prePhaseMuts, successMuts, failureMuts,
      applyMut, setLastStatus, initTask, List.chain'_cons, statusRank]

/-- C4: the claim fails at statement granularity: in the concrete
successful run, right after the mutation that sets status to "completed"
the task has three steps entries, and the next mutation appends a fourth —
a further mutation of the steps field after status became terminal (the
failure path likewise writes error and steps after status := "failed"). -/
theorem mutation_after_terminal_status :
    (((publishTrace (initTask "t1" "hero") "workspace" .ok).map
        (fun t => (t.status, t.steps.length))).drop 12)
      = [("completed", 3), ("completed", 4)] := by
  decide

/-- C4 (amended): at the granularity at which any other code can read the
task, the invariant holds: executePublish suspends only at the awaited exec
promise, so the observable states are those at creation, during the exec
call, and after the function returns; whenever an observable state has
terminal status, every later observable state is identical.  The trailing
writes of the terminal blocks (the final steps entry, and error on
failure) happen inside the same uninterrupted block as the status
assignment. -/
theorem terminal_observable_states_frozen (tid name target : String) (out : ExecOutcome)
    (i j : Nat) (hij : i ≤ j)
    (hj : j < (observableTrace (initTask tid name) target out).length)
    (hterm : terminalStatus
      ((observableTrace (initTask tid name) target out).getD i (initTask tid name)) = true) :
    (observableTrace (initTask tid name) target out).getD j (initTask tid name)
      = (observableTrace (initTask tid name) target out).getD i (initTask tid name) := by
  cases out <;>
    (simp only [observableTrace, List.length_cons, List.length_nil] at hj
     interval_cases j <;> interval_cases i <;>
       first
         | rfl
         | (exfalso
            revert hterm
            simp [observableTrace, prePhaseMuts, applyMut, setLastStatus, initTask,
              terminalStatus, runPublish, execPublishMuts, successMuts, failureMuts]))

/-- Witness for terminal_observable_states_frozen at a concrete run and the
terminal observable state. -/
theorem terminal_observable_states_frozen_witness :
    (2 ≤ 2
      ∧ 2 < (observableTrace (initTask "t1" "hero") "workspace" .ok).length
      ∧ terminalStatus ((observableTrace (initTask "t1" "hero") "workspace" .ok).getD 2
          (initTask "t1" "hero")) = true)
    ∧ (observableTrace (initTask "t1" "hero") "workspace" .ok).getD 2 (initTask "t1" "hero")
      = (observableTrace (initTask "t1" "hero") "workspace" .ok).getD 2 (initTask "t1" "hero") :=
  ⟨⟨by decide, by decide, by decide⟩,
    terminal_observable_states_frozen "t1" "hero" "workspace" .ok 2 2
      (by decide) (by decide) (by decide)⟩

/-- C9: the rejection message the catch block receives on a timeout is the
child stderr or the generic command-failure message of the killed exec
call; with empty stderr the concrete resulting task error carries no
timeout wording at all (neither "timeout" nor "timed" occurs, in any
letter case), refuting the claim that the failure message states the
timeout. -/
theorem timeout_message_has_no_timeout_wording :
    (runPublish (initTask "t1" "hero") "workspace"
        (.err (timeoutRejectionMessage "" "cmssy publish hero --workspace w1 --no-bump"))).status
      = "failed"
    ∧ (runPublish (initTask "t1" "hero") "workspace"
        (.err (timeoutRejectionMessage "" "cmssy publish hero --workspace w1 --no-bump"))).error
      = some "Command failed: cmssy publish hero --workspace w1 --no-bump"
    ∧ hasSub "timeout".toList
        (("Command failed: cmssy publish hero --workspace w1 --no-bump").toList.map Char.toLower)
      = false
    ∧ hasSub "timed".toList
        (("Command failed: cmssy publish hero --workspace w1 --no-bump").toList.map Char.toLower)
      = false := by
  refine ⟨?_, ?_, ?_, ?_⟩ <;> decide

/-- C9 (amended): a publish whose exec call exceeds the 180000 ms hard
timeout fails exactly the way a remote failure does: the rejection flows
through the same catch block, which sets status failed, stores the
rejection message (the child stderr if non-empty, otherwise the generic
exec failure message) as the task error, and appends a failed error step
with that message; the code adds no timeout-specific wording of its own. -/
theorem timeout_fails_like_remote_failure (tid name target m stderr command : String) :
    (runPublish (initTask tid name) target (.err m)).status = "failed"
    ∧ (runPublish (initTask tid name) target (.err m)).error = some m
    ∧ (runPublish (initTask tid name) target (.err m)).steps.getLast?
      = some { step := "error", status := "failed", message := "Error: " ++ m }
    ∧ (runPublish (initTask tid name) target (.err m)).progress = 50
    ∧ (runPublish (initTask tid name) target
        (.err (timeoutRejectionMessage stderr command))).error
      = some (timeoutRejectionMessage stderr command) := by
  refine ⟨?_, ?_, ?_, ?_, ?_⟩ <;>
    simp [runPublish, execPublishMuts, prePhaseMuts, failureMuts, applyMut,
      setLastStatus, initTask]

/-- C8: a publish request with a falsy target, a target that is neither
marketplace nor workspace, or target workspace without a workspace id, is
rejected before any task is created: the response carries no task id, the
task map is returned unchanged, and the answer is a not-found or a
validation error. -/
theorem publish_validation_rejects (registry : List Resource)
    (tasks : List (String × Task)) (req : PublishRequest) (newTaskId : String)
    (hcase : falsyStr req.target = true
      ∨ (req.target ≠ some "marketplace" ∧ req.target ≠ some "workspace")
      ∨ (req.target = some "workspace" ∧ falsyStr req.workspaceId = true)) :
    responseTaskId (publishCreate registry tasks req newTaskId).1 = none
    ∧ (publishCreate registry tasks req newTaskId).2 = tasks
    ∧ (isBadRequest (publishCreate registry tasks req newTaskId).1 = true
        ∨ (publishCreate registry tasks req newTaskId).1 = .notFound) := by
  unfold publishCreate
  cases hfind : registry.find? (fun r => r.name == req.name) with
  | none => exact ⟨rfl, rfl, Or.inr rfl⟩
  | some r =>
    rcases hcase with hf | ⟨hm, hw⟩ | ⟨ht, hwid⟩
    · simp [hf, responseTaskId, isBadRequest]
    · have hm' : (req.target != some "marketplace") = true := by
        simp [bne_iff_ne, hm]
      have hw' : (req.target != some "workspace") = true := by
        simp [bne_iff_ne, hw]
      simp [hm', hw', responseTaskId, isBadRequest]
    · have h1 : falsyStr req.target = false := by simp [ht, falsyStr]
      have h2 : (req.target != some "workspace") = false := by simp [ht]
      have h3 : (req.target == some "workspace") = true := by simp [ht]
      simp [h1, h2, h3, hwid, responseTaskId, isBadRequest]

/-- Witness for publish_validation_rejects: target workspace with no
workspace id, for an existing resource hero. -/
theorem publish_validation_rejects_witness :
    (falsyStr (some "workspace" : Option String) = true
      ∨ ((some "workspace" : Option String) ≠ some "marketplace"
          ∧ (some "workspace" : Option String) ≠ some "workspace")
      ∨ ((some "workspace" : Option String) = some "workspace"
          ∧ falsyStr (none : Option String) = true))
    ∧ (responseTaskId (publishCreate
          [{ rtype := "block", name := "hero", path := "blocks/hero", displayName := "Hero",
             description := none, category := none, blockConfig := none, packageJson := none }]
          [] { name := "hero", target := some "workspace", workspaceId := none,
               versionBump := none } "t1").1 = none
        ∧ (publishCreate
          [{ rtype := "block", name := "hero", path := "blocks/hero", displayName := "Hero",
             description := none, category := none, blockConfig := none, packageJson := none }]
          [] { name := "hero", target := some "workspace", workspaceId := none,
               versionBump := none } "t1").2 = []
        ∧ (isBadRequest (publishCreate
          [{ rtype := "block", name := "hero", path := "blocks/hero", displayName := "Hero",
             description := none, category := none, blockConfig := none, packageJson := none }]
          [] { name := "hero", target := some "workspace", workspaceId := none,
               versionBump := none } "t1").1 = true
          ∨ (publishCreate
          [{ rtype := "block", name := "hero", path := "blocks/hero", displayName := "Hero",
             description := none, category := none, blockConfig := none, packageJson := none }]
          [] { name := "hero", target := some "workspace", workspaceId := none,
               versionBump := none } "t1").1 = .notFound)) :=
  ⟨Or.inr (Or.inr ⟨rfl, by decide⟩),
    publish_validation_rejects _ _ _ _ (Or.inr (Or.inr ⟨rfl, by decide⟩))⟩

/-- C10: a progress stream opened for a task id absent from the task map
writes no data frame, neither initially nor at any poll tick, and the
server never ends the response: the stream stays open until the client
disconnects (which clears the poll interval). -/
theorem unknown_task_stream_stays_open (tid : String)
    (snaps : List (List (String × Task)))
    (h : ∀ m ∈ snaps, lookupTask m tid = none) :
    progressRun tid snaps = ([], false)
    ∧ progressInitialWrite (snaps.headD []) tid = [] := by
  constructor
  · induction snaps with
    | nil => rfl
    | cons m rest ih =>
      have hm := h m (List.mem_cons_self m rest)
      have hrest : ∀ x ∈ rest, lookupTask x tid = none :=
        fun x hx => h x (List.mem_cons_of_mem m hx)
      simp [progressRun, progressTick, hm, ih hrest]
  · cases snaps with
    | nil => rfl
    | cons m rest =>
      have hm := h m (List.mem_cons_self m rest)
      simp [progressInitialWrite, hm]

/-- Witness for unknown_task_stream_stays_open: three poll ticks over a map
holding an unrelated task. -/
theorem unknown_task_stream_stays_open_witness :
    (∀ m ∈ [[("other", initTask "other" "hero")],
            [("other", initTask "other" "hero")],
            [("other", initTask "other" "hero")]], lookupTask m "missing" = none)
    ∧ (progressRun "missing"
        [[("other", initTask "other" "hero")],
         [("other", initTask "other" "hero")],
         [("other", initTask "other" "hero")]] = ([], false)
      ∧ progressInitialWrite
          ([[("other", initTask "other" "hero")],
            [("other", initTask "other" "hero")],
            [("other", initTask "other" "hero")]].headD []) "missing" = []) :=
  ⟨by decide, unknown_task_stream_stays_open "missing" _ (by decide)⟩

/-- The broadcast loop delivers the event to exactly the connected
sessions, in order, independently of failures in between. -/
theorem broadcastLoop_eq (clients : List Session) (ev : SSEEvent) :
    broadcastLoop clients ev
      = (clients.filter (·.connected)).map (fun c => (c.sid, ev)) := by
  induction clients with
  | nil => rfl
  | cons c rest ih =>
    cases hc : c.connected <;>
      simp [broadcastLoop, writeAttempt, hc, ih, List.filter_cons]

/-- No branch of the change handler modifies the session list. -/
theorem handleChange_clientsAfter (env : FsEnv) (registry : List Resource)
    (clients : List Session) (parts : List String) :
    (handleChange env registry clients parts).clientsAfter = clients := by
  by_cases hpv : pathEndsWith parts "preview.json" = true
  · simp [handleChange, hpv, watchNoop]
  rw [Bool.not_eq_true] at hpv
  by_cases hd : pathEndsWith parts "block.d.ts" = true
  · simp [handleChange, hpv, hd, watchNoop]
  rw [Bool.not_eq_true] at hd
  by_cases hs : "styles" ∈ parts
  · simp [handleChange, hpv, hd, hs]
  cases hr : resourceNameOf parts with
  | none => simp [handleChange, hpv, hd, hs, hr, watchNoop]
  | some rname =>
    cases hf : registry.find? (fun x => x.name == rname) with
    | none => simp [handleChange, hpv, hd, hs, hr, hf, watchNoop]
    | some r => simp [handleChange, hpv, hd, hs, hr, hf]

/-- A change event for a plain source file of a registered resource (not a
preview, not a generated declaration file, not under styles) rebuilds
exactly that resource. -/
theorem handleChange_source (env : FsEnv) (registry : List Resource)
    (clients : List Session) (parts : List String) (rname : String) (r : Resource)
    (h1 : pathEndsWith parts "preview.json" = false)
    (h2 : pathEndsWith parts "block.d.ts" = false)
    (h3 : parts.contains "styles" = false)
    (h4 : resourceNameOf parts = some rname)
    (h5 : registry.find? (fun x => x.name == rname) = some r) :
    (handleChange env registry clients parts).rebuilds = [r.name] := by
  have h3m : ¬ ("styles" ∈ parts) := by simpa using h3
  simp [handleChange, h1, h2, h3m, h4, h5]

/-- Elements all equal to an already-seen path contribute nothing to the
deduplication. -/
theorem distinctPathsAux_all_seen (p : List String) (seen : List (List String))
    (hseen : p ∈ seen) (l : List (List String))
    (hall : ∀ q ∈ l, q = p) : distinctPathsAux seen l = [] := by
  induction l with
  | nil => rfl
  | cons q rest ih =>
    have hq : q = p := hall q (List.mem_cons_self q rest)
    have hrest : ∀ x ∈ rest, x = p := fun x hx => hall x (List.mem_cons_of_mem q hx)
    rw [hq]
    simp [distinctPathsAux, hseen, ih hrest]

/-- A nonempty list of identical paths deduplicates to that single path. -/
theorem distinctPaths_const (p : List String) (l : List (List String))
    (hall : ∀ q ∈ l, q = p) (hne : l ≠ []) : distinctPaths l = [p] := by
  cases l with
  | nil => exact absurd rfl hne
  | cons q rest =>
    have hq : q = p := hall q (List.mem_cons_self q rest)
    have hrest : ∀ x ∈ rest, x = p := fun x hx => hall x (List.mem_cons_of_mem q hx)
    rw [hq]
    have haux : distinctPathsAux [p] rest = [] :=
      distinctPathsAux_all_seen p [p] (List.mem_cons_self p []) rest hrest
    simp [distinctPaths, distinctPathsAux, haux]

/-- The write timestamps extracted for the path of a single-file burst are
the original timestamps. -/
theorem timesOf_const (p : List String) (ts : List Nat) :
    timesOf p (ts.map (fun t => (t, p))) = ts := by
  induction ts with
  | nil => rfl
  | cons t rest ih =>
    simpa [timesOf, List.filter_cons] using ih

/-- A time-ordered burst whose consecutive gaps stay below the threshold
has no burst boundary. -/
theorem burstBoundaries_zero (threshold : Nat) :
    ∀ ts : List Nat, List.Chain' (fun a b => b - a < threshold) ts →
      burstBoundaries threshold ts = 0
  | [], _ => rfl
  | [_], _ => rfl
  | t1 :: t2 :: rest, h => by
    rw [List.chain'_cons] at h
    simp [burstBoundaries, Nat.not_le.mpr h.1,
      burstBoundaries_zero threshold (t2 :: rest) h.2]

/-- A nonempty rapid burst counts as a single burst. -/
theorem burstCount_one (threshold : Nat) (ts : List Nat) (hne : ts ≠ [])
    (h : List.Chain' (fun a b => b - a < threshold) ts) :
    burstCount threshold ts = 1 := by
  have hempty : ts.isEmpty = false := by
    cases ts with
    | nil => exact absurd rfl hne
    | cons t rest => rfl
  simp [burstCount, hempty, burstBoundaries_zero threshold ts h]

/-- C1 (amended): coalescing is per file, through the configured
awaitWriteFinish write stabilization: every nonempty sequence of rapid
write events to one source file of a registered resource, with consecutive
gaps below the 100 ms stability threshold, is delivered as a single change
event, and processing it triggers exactly one rebuild, of exactly the
affected resource. -/
theorem same_file_burst_single_rebuild (env : FsEnv) (registry : List Resource)
    (clients : List Session) (parts : List String) (rname : String) (r : Resource)
    (ts : List Nat)
    (h1 : pathEndsWith parts "preview.json" = false)
    (h2 : pathEndsWith parts "block.d.ts" = false)
    (h3 : parts.contains "styles" = false)
    (h4 : resourceNameOf parts = some rname)
    (h5 : registry.find? (fun x => x.name == rname) = some r)
    (hne : ts ≠ [])
    (hrapid : List.Chain' (fun a b => b - a < 100) ts) :
    (processEvents env clients registry
      (chokidarDeliver 100 (ts.map (fun t => (t, parts))))).2 = [r.name] := by
  have hall : ∀ q ∈ (ts.map (fun t => (t, parts))).map (·.2), q = parts := by
    intro q hq
    simp only [List.map_map] at hq
    rcases List.mem_map.mp hq with ⟨t, _, hfq⟩
    exact hfq.symm
  have hne2 : (ts.map (fun t => (t, parts))).map (·.2) ≠ [] := by
    simp [hne]
  have hdistinct := distinctPaths_const parts _ hall hne2
  have hdeliver : chokidarDeliver 100 (ts.map (fun t => (t, parts))) = [parts] := by
    unfold chokidarDeliver
    rw [hdistinct]
    simp [timesOf_const, burstCount_one 100 ts hne hrapid]
  rw [hdeliver]
  simp [processEvents, handleChange_source env registry clients parts rname r h1 h2 h3 h4 h5]

/-- A resource of the witness project. -/
def heroRes : Resource :=
  { rtype := "block", name := "hero", path := "blocks/hero", displayName := "Hero",
    description := none, category := none, blockConfig := none, packageJson := none }

/-- A filesystem oracle on which no config or manifest loads. -/
def env0 : FsEnv :=
  { loadBlockConfig := fun _ => none, readPackageJson := fun _ => none }

/-- Witness for same_file_burst_single_rebuild: three writes to the same
source file 30 ms apart yield one rebuild of hero. -/
theorem same_file_burst_single_rebuild_witness :
    (pathEndsWith ["blocks", "hero", "src", "Hero.tsx"] "preview.json" = false
      ∧ pathEndsWith ["blocks", "hero", "src", "Hero.tsx"] "block.d.ts" = false
      ∧ ["blocks", "hero", "src", "Hero.tsx"].contains "styles" = false
      ∧ resourceNameOf ["blocks", "hero", "src", "Hero.tsx"] = some "hero"
      ∧ [heroRes].find? (fun x => x.name == "hero") = some heroRes
      ∧ ([0, 30, 60] : List Nat) ≠ []
      ∧ List.Chain' (fun a b => b - a < 100) [0, 30, 60])
    ∧ (processEvents env0 [] [heroRes]
        (chokidarDeliver 100
          (([0, 30, 60] : List Nat).map
            (fun t => (t, ["blocks", "hero", "src", "Hero.tsx"]))))).2 = [heroRes.name] :=
  ⟨⟨by decide, by decide, by decide, by decide, by decide, by decide,
      by simp [List.chain'_cons]⟩,
    same_file_burst_single_rebuild env0 [heroRes] [] ["blocks", "hero", "src", "Hero.tsx"]
      "hero" heroRes [0, 30, 60] (by decide) (by decide) (by decide) (by decide)
      (by decide) (by decide) (by simp [List.chain'_cons])⟩

/-- C1: the watcher does not coalesce per root: a burst of two rapid writes
to two different files of the same root (even of the same resource), 10 ms
apart, is delivered as two change events and triggers two rebuilds, not
one, refuting the per-root coalescing reading of the claim. -/
theorem same_root_burst_two_rebuilds :
    (processEvents env0 [] [heroRes]
      (chokidarDeliver 100
        [(0, ["blocks", "hero", "src", "A.tsx"]),
         (10, ["blocks", "hero", "src", "B.tsx"])])).2 = ["hero", "hero"]
    ∧ (processEvents env0 [] [heroRes]
        (chokidarDeliver 100
          [(0, ["blocks", "hero", "src", "A.tsx"]),
           (10, ["blocks", "hero", "src", "B.tsx"])])).2.length ≠ 1 := by
  decide

/-- C5: a change to a registered resource R of its block.config.ts (with a
loadable config) updates R in place in the registry — new config with its
schema, displayName with the fallback, description, category — regenerates
the types of R, rebuilds exactly R and nothing else, and broadcasts a
single event for R with configChanged true. -/
theorem config_change_reloads_then_rebuilds_only_R (env : FsEnv)
    (registry : List Resource) (clients : List Session) (parts : List String)
    (rname : String) (r : Resource) (cfg : BlockConfig)
    (hlast : parts.getLast? = some "block.config.ts")
    (h3 : parts.contains "styles" = false)
    (h4 : resourceNameOf parts = some rname)
    (h5 : registry.find? (fun x => x.name == rname) = some r)
    (hcfg : env.loadBlockConfig r.path = some cfg) :
    (handleChange env registry clients parts).registry
      = updateFirst (fun x => x.name == rname) (fun _ => applyConfig r cfg) registry
    ∧ (handleChange env registry clients parts).rebuilds = [r.name]
    ∧ (handleChange env registry clients parts).typegens = [r.name]
    ∧ (handleChange env registry clients parts).events = [resourceEvent r.name true] := by
  have h1 : pathEndsWith parts "preview.json" = false := by
    unfold pathEndsWith; rw [hlast]; decide
  have h2 : pathEndsWith parts "block.d.ts" = false := by
    unfold pathEndsWith; rw [hlast]; decide
  have hcfgEnds : pathEndsWith parts "block.config.ts" = true := by
    unfold pathEndsWith; rw [hlast]; decide
  have hpkg : pathEndsWith parts "package.json" = false := by
    unfold pathEndsWith; rw [hlast]; decide
  have h3m : ¬ ("styles" ∈ parts) := by simpa using h3
  refine ⟨?_, ?_, ?_, ?_⟩ <;>
    simp [handleChange, h1, h2, h3m, h4, h5, hcfgEnds, hpkg, hcfg]

/-- The config loaded in the witness scenario. -/
def cfg0 : BlockConfig :=
  { name := "Hero Banner", description := some "A hero section",
    category := some "marketing", schema := [("heading", "singleLine")] }

/-- Filesystem oracle of the witness scenario: the hero config loads, no
manifest does. -/
def env1 : FsEnv :=
  { loadBlockConfig := fun p => if p = "blocks/hero" then some cfg0 else none,
    readPackageJson := fun _ => none }

/-- Witness for config_change_reloads_then_rebuilds_only_R on the hero
resource. -/
theorem config_change_reloads_witness :
    ((["blocks", "hero", "block.config.ts"] : List String).getLast? = some "block.config.ts"
      ∧ ["blocks", "hero", "block.config.ts"].contains "styles" = false
      ∧ resourceNameOf ["blocks", "hero", "block.config.ts"] = some "hero"
      ∧ [heroRes].find? (fun x => x.name == "hero") = some heroRes
      ∧ env1.loadBlockConfig heroRes.path = some cfg0)
    ∧ ((handleChange env1 [heroRes] [] ["blocks", "hero", "block.config.ts"]).registry
        = updateFirst (fun x => x.name == "hero") (fun _ => applyConfig heroRes cfg0) [heroRes]
      ∧ (handleChange env1 [heroRes] [] ["blocks", "hero", "block.config.ts"]).rebuilds
        = [heroRes.name]
      ∧ (handleChange env1 [heroRes] [] ["blocks", "hero", "block.config.ts"]).typegens
        = [heroRes.name]
      ∧ (handleChange env1 [heroRes] [] ["blocks", "hero", "block.config.ts"]).events
        = [resourceEvent heroRes.name true]) :=
  ⟨⟨by decide, by decide, by decide, by decide, by decide⟩,
    config_change_reloads_then_rebuilds_only_R env1 [heroRes] []
      ["blocks", "hero", "block.config.ts"] "hero" heroRes cfg0
      (by decide) (by decide) (by decide) (by decide) (by decide)⟩

/-- C6: a change event under the shared styles root (the ignore patterns of
the watcher guarantee delivered events are neither preview.json nor
block.d.ts) rebuilds every resource of the registry, in registry order, and
broadcasts exactly one event carrying the "all" marker, delivered once to
each connected session. -/
theorem styles_change_rebuilds_all (env : FsEnv) (registry : List Resource)
    (clients : List Session) (parts : List String)
    (h1 : pathEndsWith parts "preview.json" = false)
    (h2 : pathEndsWith parts "block.d.ts" = false)
    (h3 : parts.contains "styles" = true) :
    (handleChange env registry clients parts).rebuilds = registry.map (·.name)
    ∧ (handleChange env registry clients parts).events = [stylesEvent]
    ∧ stylesEvent.block = "all"
    ∧ (handleChange env registry clients parts).deliveries
      = (clients.filter (·.connected)).map (fun c => (c.sid, stylesEvent)) := by
  have h3m : "styles" ∈ parts := by simpa using h3
  refine ⟨?_, ?_, rfl, ?_⟩ <;>
    simp [handleChange, h1, h2, h3m, broadcastLoop_eq]

/-- A second witness resource. -/
def navRes : Resource :=
  { rtype := "block", name := "nav", path := "blocks/nav", displayName := "Nav",
    description := none, category := none, blockConfig := none, packageJson := none }

/-- Witness for styles_change_rebuilds_all: a main.css change with two
resources and three sessions, one of them disconnected. -/
theorem styles_change_rebuilds_all_witness :
    (pathEndsWith ["styles", "main.css"] "preview.json" = false
      ∧ pathEndsWith ["styles", "main.css"] "block.d.ts" = false
      ∧ ["styles", "main.css"].contains "styles" = true)
    ∧ ((handleChange env0 [heroRes, navRes]
          [Session.mk 0 true, Session.mk 1 false, Session.mk 2 true] ["styles", "main.css"]).rebuilds
        = [heroRes, navRes].map (·.name)
      ∧ (handleChange env0 [heroRes, navRes]
          [Session.mk 0 true, Session.mk 1 false, Session.mk 2 true] ["styles", "main.css"]).events = [stylesEvent]
      ∧ stylesEvent.block = "all"
      ∧ (handleChange env0 [heroRes, navRes]
          [Session.mk 0 true, Session.mk 1 false, Session.mk 2 true] ["styles", "main.css"]).deliveries
        = ([Session.mk 0 true, Session.mk 1 false, Session.mk 2 true].filter (·.connected)).map
            (fun c => (c.sid, stylesEvent))) :=
  ⟨⟨by decide, by decide, by decide⟩,
    styles_change_rebuilds_all env0 [heroRes, navRes]
      [Session.mk 0 true, Session.mk 1 false, Session.mk 2 true] ["styles", "main.css"]
      (by decide) (by decide) (by decide)⟩

/-- C7: a session whose write fails is not dropped by the write attempt:
after a broadcast over a disconnected session and a connected one, the
session list still contains the disconnected session unchanged, while the
broadcast did continue and deliver to the connected one. -/
theorem failed_write_not_dropped :
    (handleChange env0 [heroRes]
        [{ sid := 0, connected := false }, { sid := 1, connected := true }]
        ["styles", "main.css"]).clientsAfter
      = [{ sid := 0, connected := false }, { sid := 1, connected := true }]
    ∧ ({ sid := 0, connected := false } : Session) ∈
        (handleChange env0 [heroRes]
          [{ sid := 0, connected := false }, { sid := 1, connected := true }]
          ["styles", "main.css"]).clientsAfter
    ∧ (handleChange env0 [heroRes]
        [{ sid := 0, connected := false }, { sid := 1, connected := true }]
        ["styles", "main.css"]).deliveries = [(1, stylesEvent)] := by
  decide

/-- C7 (amended): a failing write is swallowed and the broadcast continues
to every other session exactly as if the failed session were absent; no
broadcast ever changes the session list, and a session is removed only by
the close handler of its own connection, which deletes its first
occurrence. -/
theorem broadcast_continues_removal_only_on_close (env : FsEnv)
    (registry : List Resource) (parts : List String)
    (a b : List Session) (bad : Session) (ev : SSEEvent)
    (pre post : List Session) (s : Session)
    (hbad : bad.connected = false)
    (hpre : ∀ c ∈ pre, c.sid ≠ s.sid) :
    broadcastLoop (a ++ bad :: b) ev = broadcastLoop (a ++ b) ev
    ∧ (handleChange env registry (a ++ bad :: b) parts).clientsAfter = a ++ bad :: b
    ∧ onCloseRemove (pre ++ s :: post) s.sid = pre ++ post := by
  refine ⟨?_, handleChange_clientsAfter env registry (a ++ bad :: b) parts, ?_⟩
  · induction a with
    | nil => simp [broadcastLoop, writeAttempt, hbad]
    | cons c rest ih =>
      cases hc : c.connected <;>
        simp [broadcastLoop, writeAttempt, hc, ih]
  · induction pre with
    | nil => simp [onCloseRemove]
    | cons c rest ih =>
      have hc : c.sid ≠ s.sid := hpre c (List.mem_cons_self c rest)
      have hrest : ∀ x ∈ rest, x.sid ≠ s.sid :=
        fun x hx => hpre x (List.mem_cons_of_mem c hx)
      simp [onCloseRemove, hc, ih hrest]

/-- Witness for broadcast_continues_removal_only_on_close on concrete
session lists. -/
theorem broadcast_continues_removal_only_on_close_witness :
    ((Session.mk 0 false).connected = false
      ∧ (∀ c ∈ [Session.mk 5 true], c.sid ≠ (Session.mk 7 true).sid))
    ∧ (broadcastLoop ([Session.mk 1 true] ++ Session.mk 0 false :: [Session.mk 2 true])
          stylesEvent
        = broadcastLoop ([Session.mk 1 true] ++ [Session.mk 2 true]) stylesEvent
      ∧ (handleChange env0 [heroRes]
          ([Session.mk 1 true] ++ Session.mk 0 false :: [Session.mk 2 true])
          ["styles", "main.css"]).clientsAfter
        = [Session.mk 1 true] ++ Session.mk 0 false :: [Session.mk 2 true]
      ∧ onCloseRemove ([Session.mk 5 true] ++ Session.mk 7 true :: [Session.mk 6 false])
          (Session.mk 7 true).sid
        = [Session.mk 5 true] ++ [Session.mk 6 false]) :=
  ⟨⟨by decide, by decide⟩,
    broadcast_continues_removal_only_on_close env0 [heroRes] ["styles", "main.css"]
      [Session.mk 1 true] [Session.mk 2 true] (Session.mk 0 false) stylesEvent
      [Session.mk 5 true] [Session.mk 6 false] (Session.mk 7 true)
      (by decide) (by decide)⟩

end CmssyForge
